import Mathlib

/-!
Shallow embedding of the smart-glasses relay server.

The repository has two server variants:
* `src/server.js` — a `POST /api/text` endpoint with an in-process response
  cache (plain JS object, lazy one-hour expiry), a bounded conversation
  history, a DeepSeek completion call and a Google TTS call.
* `src/unnamed/part_000` — a `POST /api/voice` endpoint: Whisper
  transcription, a DeepSeek completion adapter (`callDeepseekApi`) with
  apology fallbacks, a TTS adapter (`callTtsApi`) that throws on failure,
  and unconditional temp-file cleanup in a `finally` block.

Remote services are modelled as oracles passed in as function arguments;
`Date.now()` is an explicit `now : Nat` (milliseconds).
-/

namespace SmartGlasses

/-- Message roles used in the chat payloads (`system` / `user` / `assistant`). -/
inductive Role where
  | system
  | user
  | assistant
deriving DecidableEq, Repr

/-- One chat message `{role, content}` as built by both server variants. -/
structure Message where
  role : Role
  content : String
deriving DecidableEq, Repr

/-- A cache entry `{text, expiry}` as stored by `cache[prompt] = {...}`
in `src/server.js` lines 100-103. -/
structure CacheEntry where
  text : String
  expiry : Nat
deriving DecidableEq, Repr

/-- The JS object `cache` of `src/server.js` line 33, modelled as an
association list from prompt keys to entries. -/
abbrev Cache := List (String × CacheEntry)

/-- `const MAX_HISTORY_MESSAGES = 10` (`src/server.js` line 30):
number of (user, assistant) pairs kept. -/
def MAX_HISTORY_MESSAGES : Nat := 10

/-- `const CACHE_EXPIRY_TIME_MS = 3600000` (`src/server.js` line 34): one hour. -/
def CACHE_EXPIRY_TIME_MS : Nat := 3600000

/-- The process-wide mutable globals of `src/server.js`:
`cache` (line 33) and `conversationHistory` (line 29). -/
structure ServerState where
  cache : Cache
  history : List Message
deriving DecidableEq, Repr

/-- Property read `cache[prompt]` on the JS object. -/
def assocGet : Cache → String → Option CacheEntry
  | [], _ => none
  | (k, v) :: rest, key => if key = k then some v else assocGet rest key

/-- Property write `cache[prompt] = entry` on the JS object
(overwrites an existing binding, otherwise adds one). -/
def assocSet : Cache → String → CacheEntry → Cache
  | [], key, v => [(key, v)]
  | (k, w) :: rest, key, v =>
      if key = k then (key, v) :: rest else (k, w) :: assocSet rest key v

/-- The cache test of `src/server.js` line 50:
`cache[prompt] && Date.now() < cache[prompt].expiry`, returning the stored
text on a hit and `none` otherwise (missing entry, or expiry reached). -/
def cacheLookup (c : Cache) (k : String) (now : Nat) : Option String :=
  match assocGet c k with
  | some e => if now < e.expiry then some e.text else none
  | none => none

/-- The history cap of `src/server.js` lines 110-112:
`if (length > MAX_HISTORY_MESSAGES * 2) slice(length - MAX_HISTORY_MESSAGES * 2)`,
i.e. keep only the last `MAX_HISTORY_MESSAGES * 2` messages. -/
def trimHistory (h : List Message) : List Message :=
  if h.length > MAX_HISTORY_MESSAGES * 2 then
    h.drop (h.length - MAX_HISTORY_MESSAGES * 2)
  else h

/-- System message of `src/server.js` line 74. -/
def textSystemPromptContent : String :=
  "You are a helpful smart glasses assistant. Keep your answers concise."

/-- The `messages` array built in `src/server.js` lines 72-81:
system message, then the whole `conversationHistory`, then the new user turn. -/
def textCompletionMessages (history : List Message) (prompt : String) : List Message :=
  ⟨Role.system, textSystemPromptContent⟩ :: (history ++ [⟨Role.user, prompt⟩])

/-- Payload shape handed to an outbound completion call
(model identifier, message list, optional `max_tokens`). -/
structure CompletionRequest where
  model : String
  messages : List Message
  maxTokens : Option Nat
deriving DecidableEq, Repr

/-- The completion request of `src/server.js` lines 88-91: model
`deepseek-chat`, the history-bearing message list, and no `max_tokens`. -/
def textCompletionRequest (history : List Message) (prompt : String) : CompletionRequest :=
  ⟨"deepseek-chat", textCompletionMessages history prompt, none⟩

/-- Outcome of one HTTP request as seen by the client.  `unhandled` marks an
exception thrown outside every `try` block of the handler: Express 4 does not
catch a rejected `async` handler, so no response is written by the handler. -/
inductive HttpOutcome where
  | ok (contentType : String) (body : String)
  | badRequest (msg : String)
  | serverError (msg : String)
  | unhandled
deriving DecidableEq, Repr

/-- 400 body of `src/server.js` line 44. -/
def badRequestTextMsg : String :=
  "Text prompt missing. Expected JSON body: \x7b \"text\": \"...\" \x7d"

/-- 500 body of `src/server.js` line 127. -/
def serverErrorMsg : String := "Server error during AI processing."

/-- Result of one `POST /api/text` request: the HTTP outcome, the globals
after the request, whether the completion service was invoked and with which
payload, and the text handed to speech synthesis (if any). -/
structure TextResult where
  outcome : HttpOutcome
  state : ServerState
  llmCalled : Bool
  llmRequest : Option CompletionRequest
  ttsInput : Option String
deriving DecidableEq, Repr

/-- The `POST /api/text` handler of `src/server.js` lines 39-129.
`llm msgs` is the DeepSeek call: `.ok txt` stands for a reply whose
`choices[0].message.content` is `txt`, `.error ()` for a thrown transport or
shape error.  `synth t` is `ttsClient.synthesizeSpeech` on text `t`:
`some audio` on success, `none` when the call throws.  Note the cache-hit
branch (source lines 50-66) runs before the `try` of line 86, so a TTS throw
there is uncaught (`unhandled`); on the miss path both the DeepSeek and the
TTS calls are inside the `try` and map to a 500. -/
def processText (llm : List Message → Except Unit String)
    (synth : String → Option String)
    (st : ServerState) (now : Nat) (bodyText : Option String) : TextResult :=
  match bodyText with
  | none => ⟨.badRequest badRequestTextMsg, st, false, none, none⟩
  | some prompt =>
    if prompt = "" then
      ⟨.badRequest badRequestTextMsg, st, false, none, none⟩
    else
      match cacheLookup st.cache prompt now with
      | some textResponse =>
        match synth textResponse with
        | some audio => ⟨.ok "audio/mpeg" audio, st, false, none, some textResponse⟩
        | none => ⟨.unhandled, st, false, none, some textResponse⟩
      | none =>
        match llm (textCompletionMessages st.history prompt) with
        | .error _ =>
          ⟨.serverError serverErrorMsg, st, true,
            some (textCompletionRequest st.history prompt), none⟩
        | .ok textResponse =>
          let st' : ServerState :=
            ⟨assocSet st.cache prompt ⟨textResponse, now + CACHE_EXPIRY_TIME_MS⟩,
             trimHistory (st.history ++
               [⟨Role.user, prompt⟩, ⟨Role.assistant, textResponse⟩])⟩
          match synth textResponse with
          | some audio =>
            ⟨.ok "audio/mpeg" audio, st', true,
              some (textCompletionRequest st.history prompt), some textResponse⟩
          | none =>
            ⟨.serverError serverErrorMsg, st', true,
              some (textCompletionRequest st.history prompt), some textResponse⟩

/-- Shape of the DeepSeek HTTP reply as inspected by `callDeepseekApi`
(`src/unnamed/part_000` lines 75-99): either the request threw
(`transportError`) or a reply arrived with a status code and a
`choices` array whose elements carry `message.content`. -/
inductive DSResponse where
  | transportError
  | reply (status : Nat) (choices : List Message)
deriving DecidableEq, Repr

/-- Apology of `src/unnamed/part_000` line 91 (bad status / missing or
empty `choices`). -/
def dsApologyBrain : String := "Извините, у меня проблемы с основным интеллектом."

/-- Apology of `src/unnamed/part_000` line 98 (request threw). -/
def dsApologyConnect : String := "Извините, я не могу подключиться к основному серверу."

/-- `SYSTEM_PROMPT` of `src/unnamed/part_000` line 72. -/
def voiceSystemPromptContent : String :=
  "Ты дружелюбный и краткий голосовой помощник в умных очках. Отвечай кратко, используя не более 40 слов, на русском языке."

/-- The completion payload built in `src/unnamed/part_000` lines 75-82:
model `deepseek-chat`, exactly the system prompt and the one user turn,
and `max_tokens: 100`. -/
def voiceCompletionRequest (textPrompt : String) : CompletionRequest :=
  ⟨"deepseek-chat", [⟨Role.system, voiceSystemPromptContent⟩, ⟨Role.user, textPrompt⟩],
    some 100⟩

/-- `callDeepseekApi` of `src/unnamed/part_000` lines 69-100, as a function of
the remote reply: transport error ↦ connect apology; status other than 200 or
missing/empty `choices` ↦ brain apology; otherwise
`choices[0].message.content` verbatim. -/
def callDeepseekApi (resp : DSResponse) : String :=
  match resp with
  | .transportError => dsApologyConnect
  | .reply status choices =>
    if status ≠ 200 then dsApologyBrain
    else
      match choices with
      | [] => dsApologyBrain
      | c :: _ => c.content

/-- `callTtsApi` of `src/unnamed/part_000` lines 106-136.  `synth t` models
`ttsClient.synthesizeSpeech`: `some audio` when it returns an `audioContent`
payload, `none` when the call throws or the payload is missing.  Both failure
shapes are re-thrown as the fixed error "TTS service failed.". -/
def callTtsApi (synth : String → Option String) (textToSpeak : String) :
    Except String String :=
  match synth textToSpeak with
  | some audio => .ok audio
  | none => .error "TTS service failed."

/-- JS `String.prototype.trim` as used in `transcribedText.trim()`
(`src/unnamed/part_000` line 155), modelled over the character list:
strip leading and trailing whitespace. -/
def strTrim (s : String) : String :=
  ⟨((s.data.dropWhile Char.isWhitespace).reverse.dropWhile Char.isWhitespace).reverse⟩

/-- Fallback of `src/unnamed/part_000` line 157 when transcription fails
or is blank. -/
def sttFallbackText : String := "Извините, я не смог вас услышать. Повторите, пожалуйста."

/-- 400 body of `src/unnamed/part_000` line 147. -/
def voiceBadRequestMsg : String :=
  "No audio file provided. Field name must be \x27audio_file\x27."

/-- Result of one `POST /api/voice` request.  `state` threads the shared
cache/history globals: `src/unnamed/part_000` declares no cache and no
conversation history, so the handler returns them untouched by construction.
`deleteCount` counts `fs.unlink` calls on the uploaded temp file. -/
structure VoiceResult where
  outcome : HttpOutcome
  state : ServerState
  llmCalled : Bool
  llmRequest : Option CompletionRequest
  ttsInput : Option String
  deleteCount : Nat
deriving DecidableEq, Repr

/-- The `POST /api/voice` handler of `src/unnamed/part_000` lines 140-200.
`stt` is the `callWhisperApi` result: `none` stands for a missing API key or
a thrown request (both return `null` in the source), `some t` for transcript
`t`.  `ds` maps a prompt to the DeepSeek reply fed to `callDeepseekApi`.
`hasFile` is whether multer attached `req.file`.  The `finally` block deletes
the temp file exactly once on every path that has one.
`voiceSynthStep` is steps 4-5 of the handler (source lines 165-186): synthesize
the chosen response text and either stream the audio or map the thrown TTS
error to a 500 body; the `finally` cleanup sets `deleteCount := 1` on both. -/
def voiceSynthStep (synth : String → Option String) (st : ServerState)
    (finalResponseText : String) (llmCalled : Bool)
    (llmRequest : Option CompletionRequest) : VoiceResult :=
  match callTtsApi synth finalResponseText with
  | .ok audio =>
    ⟨.ok "audio/mpeg" audio, st, llmCalled, llmRequest, some finalResponseText, 1⟩
  | .error msg =>
    ⟨.serverError ("Внутренняя ошибка сервера: " ++ msg), st, llmCalled, llmRequest,
      some finalResponseText, 1⟩

/-- The `POST /api/voice` handler body of `src/unnamed/part_000`
lines 140-200: reject a missing file with a 400 and no cleanup, otherwise
pick the fallback text (failed or blank transcription) or the
`callDeepseekApi` reply, then run the synthesis step. -/
def processVoice (stt : Option String) (ds : String → DSResponse)
    (synth : String → Option String)
    (st : ServerState) (hasFile : Bool) : VoiceResult :=
  if hasFile = false then
    ⟨.badRequest voiceBadRequestMsg, st, false, none, none, 0⟩
  else
    match stt with
    | none => voiceSynthStep synth st sttFallbackText false none
    | some t =>
      if strTrim t = "" then voiceSynthStep synth st sttFallbackText false none
      else
        voiceSynthStep synth st (callDeepseekApi (ds t)) true
          (some (voiceCompletionRequest t))

/-- One memory append as performed on a cache miss
(`src/server.js` lines 106-112): push the user turn and the assistant turn,
then cap the history. -/
def appendPair (h : List Message) (p r : String) : List Message :=
  trimHistory (h ++ [⟨Role.user, p⟩, ⟨Role.assistant, r⟩])

/-- A sequence of memory appends, oldest first. -/
def runAppends : List (String × String) → List Message → List Message
  | [], h => h
  | pr :: ps, h => runAppends ps (appendPair h pr.1 pr.2)

/-- The un-evicted transcript of a sequence of appends:
user/assistant turns in order. -/
def pairsFlat : List (String × String) → List Message
  | [] => []
  | pr :: ps => ⟨Role.user, pr.1⟩ :: ⟨Role.assistant, pr.2⟩ :: pairsFlat ps

/-- Substring test over the underlying character lists (used to state what a
fixed prompt string does or does not mention). -/
def charsHaveSub (pat : List Char) : List Char → Bool
  | [] => pat.isEmpty
  | c :: rest => pat.isPrefixOf (c :: rest) || charsHaveSub pat rest

/-- `hasSub s pat` is true iff `pat` occurs as a contiguous substring of `s`. -/
def hasSub (s pat : String) : Bool := charsHaveSub pat.data s.data

/-! ## Helper lemmas -/

theorem assocGet_assocSet_self (c : Cache) (k : String) (v : CacheEntry) :
    assocGet (assocSet c k v) k = some v := by
  induction c with
  | nil => simp [assocSet, assocGet]
  | cons hd tl ih =>
    obtain ⟨k', w⟩ := hd
    by_cases h : k = k' <;> simp [assocSet, assocGet, h, ih]

theorem assocGet_assocSet_ne (c : Cache) (k k' : String) (v : CacheEntry)
    (h : ¬ k' = k) :
    assocGet (assocSet c k v) k' = assocGet c k' := by
  induction c with
  | nil => simp [assocSet, assocGet, h]
  | cons hd tl ih =>
    obtain ⟨k₀, w⟩ := hd
    by_cases hk : k = k₀
    · subst hk
      simp [assocSet, assocGet, h]
    · by_cases hk' : k' = k₀ <;> simp [assocSet, assocGet, hk, hk', ih]

theorem trimHistory_length_le (h : List Message) :
    (trimHistory h).length ≤ MAX_HISTORY_MESSAGES * 2 := by
  unfold trimHistory
  split
  · rw [List.length_drop]
    omega
  · omega

theorem pairsFlat_append (a b : List (String × String)) :
    pairsFlat (a ++ b) = pairsFlat a ++ pairsFlat b := by
  induction a with
  | nil => simp [pairsFlat]
  | cons pr ps ih => simp [pairsFlat, ih]

theorem pairsFlat_length (ps : List (String × String)) :
    (pairsFlat ps).length = 2 * ps.length := by
  induction ps with
  | nil => simp [pairsFlat]
  | cons pr ps ih => simp [pairsFlat, ih]; omega

theorem runAppends_length_le (ps : List (String × String)) :
    ∀ h : List Message, h.length ≤ MAX_HISTORY_MESSAGES * 2 →
      (runAppends ps h).length ≤ MAX_HISTORY_MESSAGES * 2 := by
  induction ps with
  | nil => intro h hh; simpa [runAppends] using hh
  | cons pr ps ih =>
    intro h hh
    exact ih _ (trimHistory_length_le _)

theorem appendPair_drop (acc : List (String × String)) (p r : String) (k : Nat)
    (hk : 2 * k ≤ (pairsFlat acc).length) :
    ∃ k', appendPair ((pairsFlat acc).drop (2 * k)) p r
        = (pairsFlat (acc ++ [(p, r)])).drop (2 * k')
      ∧ 2 * k' ≤ (pairsFlat (acc ++ [(p, r)])).length := by
  have hflat : pairsFlat (acc ++ [(p, r)])
      = pairsFlat acc ++ [⟨Role.user, p⟩, ⟨Role.assistant, r⟩] := by
    rw [pairsFlat_append]; rfl
  have hdrop : (pairsFlat acc).drop (2 * k) ++ [⟨Role.user, p⟩, ⟨Role.assistant, r⟩]
      = (pairsFlat (acc ++ [(p, r)])).drop (2 * k) := by
    rw [hflat, List.drop_append_of_le_length hk]
  have hlen2 : (pairsFlat (acc ++ [(p, r)])).length = 2 * acc.length + 2 := by
    rw [pairsFlat_length]; simp; omega
  have hlen : (pairsFlat acc).length = 2 * acc.length := pairsFlat_length acc
  unfold appendPair
  rw [hdrop]
  unfold trimHistory
  split
  · rename_i hgt
    rw [List.length_drop, hlen2] at hgt
    rw [hlen] at hk
    refine ⟨acc.length - 9, ?_, ?_⟩
    · rw [List.drop_drop, List.length_drop, hlen2]
      congr 1
      unfold MAX_HISTORY_MESSAGES at hgt ⊢
      omega
    · rw [hlen2]
      omega
  · refine ⟨k, rfl, ?_⟩
    rw [hlen2]
    omega

theorem runAppends_drop (ps : List (String × String)) :
    ∀ (acc : List (String × String)) (k : Nat), 2 * k ≤ (pairsFlat acc).length →
      ∃ k', runAppends ps ((pairsFlat acc).drop (2 * k))
          = (pairsFlat (acc ++ ps)).drop (2 * k')
        ∧ 2 * k' ≤ (pairsFlat (acc ++ ps)).length := by
  induction ps with
  | nil =>
    intro acc k hk
    exact ⟨k, by simp [runAppends], by simpa using hk⟩
  | cons pr ps ih =>
    intro acc k hk
    obtain ⟨k₁, he₁, hle₁⟩ := appendPair_drop acc pr.1 pr.2 k hk
    obtain ⟨k', he', hle'⟩ := ih (acc ++ [(pr.1, pr.2)]) k₁ hle₁
    have hacc : acc ++ [(pr.1, pr.2)] ++ ps = acc ++ pr :: ps := by
      simp
    refine ⟨k', ?_, ?_⟩
    · show runAppends ps (appendPair ((pairsFlat acc).drop (2 * k)) pr.1 pr.2) = _
      rw [he₁, he', hacc]
    · rw [← hacc]
      exact hle'

theorem voiceSynthStep_state (synth : String → Option String) (st : ServerState)
    (ft : String) (c : Bool) (rq : Option CompletionRequest) :
    (voiceSynthStep synth st ft c rq).state = st := by
  unfold voiceSynthStep
  cases callTtsApi synth ft <;> rfl

theorem voiceSynthStep_llmCalled (synth : String → Option String) (st : ServerState)
    (ft : String) (c : Bool) (rq : Option CompletionRequest) :
    (voiceSynthStep synth st ft c rq).llmCalled = c := by
  unfold voiceSynthStep
  cases callTtsApi synth ft <;> rfl

theorem voiceSynthStep_llmRequest (synth : String → Option String) (st : ServerState)
    (ft : String) (c : Bool) (rq : Option CompletionRequest) :
    (voiceSynthStep synth st ft c rq).llmRequest = rq := by
  unfold voiceSynthStep
  cases callTtsApi synth ft <;> rfl

theorem voiceSynthStep_ttsInput (synth : String → Option String) (st : ServerState)
    (ft : String) (c : Bool) (rq : Option CompletionRequest) :
    (voiceSynthStep synth st ft c rq).ttsInput = some ft := by
  unfold voiceSynthStep
  cases callTtsApi synth ft <;> rfl

theorem voiceSynthStep_deleteCount (synth : String → Option String) (st : ServerState)
    (ft : String) (c : Bool) (rq : Option CompletionRequest) :
    (voiceSynthStep synth st ft c rq).deleteCount = 1 := by
  unfold voiceSynthStep
  cases callTtsApi synth ft <;> rfl

theorem processVoice_eq_synthStep (stt : Option String) (ds : String → DSResponse)
    (synth : String → Option String) (st : ServerState) :
    processVoice stt ds synth st true
      = match stt with
        | none => voiceSynthStep synth st sttFallbackText false none
        | some t =>
          if strTrim t = "" then voiceSynthStep synth st sttFallbackText false none
          else voiceSynthStep synth st (callDeepseekApi (ds t)) true
            (some (voiceCompletionRequest t)) := by
  unfold processVoice
  simp

theorem processText_hit_ok (llm : List Message → Except Unit String)
    (synth : String → Option String) (st : ServerState) (now : Nat)
    (P txtR audio : String) (hP : ¬ P = "")
    (hhit : cacheLookup st.cache P now = some txtR)
    (hsyn : synth txtR = some audio) :
    processText llm synth st now (some P)
      = ⟨.ok "audio/mpeg" audio, st, false, none, some txtR⟩ := by
  unfold processText
  simp [hP, hhit, hsyn]

theorem processText_hit_synthFail (llm : List Message → Except Unit String)
    (synth : String → Option String) (st : ServerState) (now : Nat)
    (P txtR : String) (hP : ¬ P = "")
    (hhit : cacheLookup st.cache P now = some txtR)
    (hsyn : synth txtR = none) :
    processText llm synth st now (some P)
      = ⟨.unhandled, st, false, none, some txtR⟩ := by
  unfold processText
  simp [hP, hhit, hsyn]

theorem processText_miss_ok (llm : List Message → Except Unit String)
    (synth : String → Option String) (st : ServerState) (now : Nat)
    (P txt audio : String) (hP : ¬ P = "")
    (hmiss : cacheLookup st.cache P now = none)
    (hllm : llm (textCompletionMessages st.history P) = .ok txt)
    (hsyn : synth txt = some audio) :
    processText llm synth st now (some P)
      = ⟨.ok "audio/mpeg" audio,
         ⟨assocSet st.cache P ⟨txt, now + CACHE_EXPIRY_TIME_MS⟩,
          trimHistory (st.history ++ [⟨Role.user, P⟩, ⟨Role.assistant, txt⟩])⟩,
         true, some (textCompletionRequest st.history P), some txt⟩ := by
  unfold processText
  simp [hP, hmiss, hllm, hsyn]

theorem processText_miss_synthFail (llm : List Message → Except Unit String)
    (synth : String → Option String) (st : ServerState) (now : Nat)
    (P txt : String) (hP : ¬ P = "")
    (hmiss : cacheLookup st.cache P now = none)
    (hllm : llm (textCompletionMessages st.history P) = .ok txt)
    (hsyn : synth txt = none) :
    processText llm synth st now (some P)
      = ⟨.serverError serverErrorMsg,
         ⟨assocSet st.cache P ⟨txt, now + CACHE_EXPIRY_TIME_MS⟩,
          trimHistory (st.history ++ [⟨Role.user, P⟩, ⟨Role.assistant, txt⟩])⟩,
         true, some (textCompletionRequest st.history P), some txt⟩ := by
  unfold processText
  simp [hP, hmiss, hllm, hsyn]

theorem processText_miss_llmFail (llm : List Message → Except Unit String)
    (synth : String → Option String) (st : ServerState) (now : Nat)
    (P : String) (hP : ¬ P = "")
    (hmiss : cacheLookup st.cache P now = none)
    (hllm : llm (textCompletionMessages st.history P) = .error ()) :
    processText llm synth st now (some P)
      = ⟨.serverError serverErrorMsg, st, true,
         some (textCompletionRequest st.history P), none⟩ := by
  unfold processText
  simp [hP, hmiss, hllm]

theorem processText_miss_llmRequest (llm : List Message → Except Unit String)
    (synth : String → Option String) (st : ServerState) (now : Nat)
    (P : String) (hP : ¬ P = "")
    (hmiss : cacheLookup st.cache P now = none) :
    (processText llm synth st now (some P)).llmRequest
      = some (textCompletionRequest st.history P) := by
  cases hl : llm (textCompletionMessages st.history P) with
  | error u =>
    cases u
    rw [processText_miss_llmFail llm synth st now P hP hmiss hl]
  | ok txt =>
    cases hsyn : synth txt with
    | none => rw [processText_miss_synthFail llm synth st now P txt hP hmiss hl hsyn]
    | some audio => rw [processText_miss_ok llm synth st now P txt audio hP hmiss hl hsyn]

theorem processText_miss_llmCalled (llm : List Message → Except Unit String)
    (synth : String → Option String) (st : ServerState) (now : Nat)
    (P : String) (hP : ¬ P = "")
    (hmiss : cacheLookup st.cache P now = none) :
    (processText llm synth st now (some P)).llmCalled = true := by
  cases hl : llm (textCompletionMessages st.history P) with
  | error u =>
    cases u
    rw [processText_miss_llmFail llm synth st now P hP hmiss hl]
  | ok txt =>
    cases hsyn : synth txt with
    | none => rw [processText_miss_synthFail llm synth st now P txt hP hmiss hl hsyn]
    | some audio => rw [processText_miss_ok llm synth st now P txt audio hP hmiss hl hsyn]

/-! ## Claim theorems -/

/-- Claim C5: starting from the empty history, after any sequence of
(user, assistant) appends the conversation history never holds more than
`MAX_HISTORY_MESSAGES * 2` messages, and the retained history is the full
ordered transcript with some number of whole oldest pairs dropped (an even
prefix), never a single unpaired turn. -/
theorem C5_memory_bound_and_pair_eviction :
    ∀ ps : List (String × String),
      (runAppends ps []).length ≤ MAX_HISTORY_MESSAGES * 2 ∧
      ∃ k, runAppends ps [] = (pairsFlat ps).drop (2 * k) := by
  intro ps
  constructor
  · exact runAppends_length_le ps [] (by simp [MAX_HISTORY_MESSAGES])
  · obtain ⟨k', he, _⟩ := runAppends_drop ps [] 0 (by simp [pairsFlat])
    exact ⟨k', by simpa [pairsFlat] using he⟩

/-- Claim C9: every voice request that carries an uploaded audio file deletes
the temporary file exactly once, whatever the transcription, completion and
synthesis outcomes (success, fallback and error paths alike); a request with
no file deletes nothing. -/
theorem C9_cleanup_exactly_once (stt : Option String) (ds : String → DSResponse)
    (synth : String → Option String) (st : ServerState) :
    (processVoice stt ds synth st true).deleteCount = 1 ∧
    (processVoice stt ds synth st false).deleteCount = 0 := by
  constructor
  · rw [processVoice_eq_synthStep]
    match stt with
    | none => exact voiceSynthStep_deleteCount ..
    | some t =>
      by_cases h : strTrim t = "" <;> simp [h, voiceSynthStep_deleteCount]
  · rfl

/-- Claim C10: a `POST /api/text` body whose `text` field is the empty string
is rejected with the same 400 response as a missing field (the handler tests
falsiness), before any adapter runs and without touching cache or memory. -/
theorem C10_empty_text_rejected (llm : List Message → Except Unit String)
    (synth : String → Option String) (st : ServerState) (now : Nat) :
    processText llm synth st now (some "")
      = ⟨.badRequest badRequestTextMsg, st, false, none, none⟩ ∧
    processText llm synth st now none = processText llm synth st now (some "") := by
  constructor <;> rfl

/-- Claim C6: a voice request whose transcription fails (`none`) or returns
blank text never invokes the completion adapter, leaves the shared
cache/history state untouched, and hands exactly the fixed fallback text to
synthesis. -/
theorem C6_failed_transcription_fallback (stt : Option String)
    (ds : String → DSResponse) (synth : String → Option String) (st : ServerState)
    (h : stt = none ∨ ∃ t, stt = some t ∧ strTrim t = "") :
    (processVoice stt ds synth st true).llmCalled = false ∧
    (processVoice stt ds synth st true).state = st ∧
    (processVoice stt ds synth st true).llmRequest = none ∧
    (processVoice stt ds synth st true).ttsInput = some sttFallbackText := by
  have hstep : processVoice stt ds synth st true
      = voiceSynthStep synth st sttFallbackText false none := by
    rw [processVoice_eq_synthStep]
    rcases h with h | ⟨t, ht, htrim⟩
    · rw [h]
    · rw [ht]
      simp [htrim]
  rw [hstep]
  exact ⟨voiceSynthStep_llmCalled .., voiceSynthStep_state ..,
    voiceSynthStep_llmRequest .., voiceSynthStep_ttsInput ..⟩

/-- Witness for C6 at a concrete input: transcription failed (`none`), so the
completion adapter is skipped, the state survives unchanged and the fallback
text goes to synthesis. -/
theorem C6_failed_transcription_fallback_witness :
    ((none : Option String) = none ∨ ∃ t, (none : Option String) = some t ∧ strTrim t = "") ∧
    ((processVoice none (fun _ => .transportError) (fun _ => some "MP3")
        ⟨[], []⟩ true).llmCalled = false ∧
      (processVoice none (fun _ => .transportError) (fun _ => some "MP3")
        ⟨[], []⟩ true).state = ⟨[], []⟩ ∧
      (processVoice none (fun _ => .transportError) (fun _ => some "MP3")
        ⟨[], []⟩ true).llmRequest = none ∧
      (processVoice none (fun _ => .transportError) (fun _ => some "MP3")
        ⟨[], []⟩ true).ttsInput = some sttFallbackText) :=
  ⟨Or.inl rfl,
    C6_failed_transcription_fallback none (fun _ => .transportError)
      (fun _ => some "MP3") ⟨[], []⟩ (Or.inl rfl)⟩

/-- Claim C1: for a prompt `P` absent from the cache (or expired) at the
first submission, the handler stores the completion result under key `P`
with expiry `now + CACHE_EXPIRY_TIME_MS` (one hour), and a second submission
of `P` within the TTL does not invoke completion again and synthesizes
exactly the stored text, returning its audio. -/
theorem C1_cache_store_then_hit (llm : List Message → Except Unit String)
    (synth : String → Option String) (st : ServerState)
    (t1 t2 : Nat) (P txt audio : String)
    (hP : ¬ P = "")
    (hmiss : cacheLookup st.cache P t1 = none)
    (hllm : llm (textCompletionMessages st.history P) = .ok txt)
    (hsyn : synth txt = some audio)
    (h2 : t2 < t1 + CACHE_EXPIRY_TIME_MS) :
    assocGet (processText llm synth st t1 (some P)).state.cache P
      = some ⟨txt, t1 + CACHE_EXPIRY_TIME_MS⟩ ∧
    (processText llm synth (processText llm synth st t1 (some P)).state t2
      (some P)).llmCalled = false ∧
    (processText llm synth (processText llm synth st t1 (some P)).state t2
      (some P)).ttsInput = some txt ∧
    (processText llm synth (processText llm synth st t1 (some P)).state t2
      (some P)).outcome = .ok "audio/mpeg" audio := by
  have h1 := processText_miss_ok llm synth st t1 P txt audio hP hmiss hllm hsyn
  have hget : assocGet (processText llm synth st t1 (some P)).state.cache P
      = some ⟨txt, t1 + CACHE_EXPIRY_TIME_MS⟩ := by
    rw [h1]
    exact assocGet_assocSet_self st.cache P _
  have hhit : cacheLookup (processText llm synth st t1 (some P)).state.cache P t2
      = some txt := by
    unfold cacheLookup
    rw [hget]
    simp [h2]
  have h2eq := processText_hit_ok llm synth
    (processText llm synth st t1 (some P)).state t2 P txt audio hP hhit hsyn
  rw [h2eq]
  exact ⟨hget, rfl, rfl, rfl⟩

/-- Witness for C1 at a concrete run: empty cache, prompt "Привет", constant
completion and synthesis oracles, first call at 1000ms, second at 2000ms. -/
theorem C1_cache_store_then_hit_witness :
    (¬ ("Привет" : String) = "") ∧
    cacheLookup ([] : Cache) "Привет" 1000 = none ∧
    (2000 : Nat) < 1000 + CACHE_EXPIRY_TIME_MS ∧
    (assocGet (processText (fun _ => .ok "Ответ") (fun _ => some "MP3")
        ⟨[], []⟩ 1000 (some "Привет")).state.cache "Привет"
      = some ⟨"Ответ", 1000 + CACHE_EXPIRY_TIME_MS⟩ ∧
    (processText (fun _ => .ok "Ответ") (fun _ => some "MP3")
      (processText (fun _ => .ok "Ответ") (fun _ => some "MP3")
        ⟨[], []⟩ 1000 (some "Привет")).state 2000 (some "Привет")).llmCalled = false ∧
    (processText (fun _ => .ok "Ответ") (fun _ => some "MP3")
      (processText (fun _ => .ok "Ответ") (fun _ => some "MP3")
        ⟨[], []⟩ 1000 (some "Привет")).state 2000 (some "Привет")).ttsInput
      = some "Ответ" ∧
    (processText (fun _ => .ok "Ответ") (fun _ => some "MP3")
      (processText (fun _ => .ok "Ответ") (fun _ => some "MP3")
        ⟨[], []⟩ 1000 (some "Привет")).state 2000 (some "Привет")).outcome
      = .ok "audio/mpeg" "MP3") :=
  ⟨by decide, rfl, by decide,
    C1_cache_store_then_hit (fun _ => .ok "Ответ") (fun _ => some "MP3")
      ⟨[], []⟩ 1000 2000 "Привет" "Ответ" "MP3"
      (by decide) rfl rfl rfl (by decide)⟩

/-- Claim C7 counterexample: with a stored expiry of 100, a lookup at
`now = 100` already misses, while the claim's characterization (absent iff
no entry or `now > expiresAt`) says the entry is still present — the code
tests `now < expiry`, so the entry dies at `now = expiresAt`, not after it. -/
theorem C7_counterexample :
    cacheLookup [("q", ⟨"a", 100⟩)] "q" 100 = none ∧
    ¬ (assocGet [("q", (⟨"a", 100⟩ : CacheEntry))] "q" = none ∨ 100 > 100) := by
  decide

/-- Claim C7 (amended): a cache entry is treated as absent by lookup exactly
when no entry exists for the key or `now ≥ expiresAt`; expiry is only checked
lazily at lookup — storing one key never removes any other entry, expired or
not — and a text request whose entry has expired invokes completion again. -/
theorem C7_lazy_expiry_amended :
    (∀ (c : Cache) (k : String) (now : Nat),
      cacheLookup c k now = none ↔
        (assocGet c k = none ∨ ∃ e, assocGet c k = some e ∧ e.expiry ≤ now)) ∧
    (∀ (c : Cache) (k k' : String) (v : CacheEntry), ¬ k' = k →
      assocGet (assocSet c k v) k' = assocGet c k') ∧
    (∀ (llm : List Message → Except Unit String) (synth : String → Option String)
      (st : ServerState) (now : Nat) (P : String) (e : CacheEntry),
      ¬ P = "" → assocGet st.cache P = some e → e.expiry ≤ now →
      (processText llm synth st now (some P)).llmCalled = true) := by
  refine ⟨?_, ?_, ?_⟩
  · intro c k now
    unfold cacheLookup
    cases hc : assocGet c k with
    | none => simp
    | some e =>
      by_cases h : now < e.expiry
      all_goals simp [h]
      all_goals omega
  · intro c k k' v h
    exact assocGet_assocSet_ne c k k' v h
  · intro llm synth st now P e hP hget hexp
    have hmiss : cacheLookup st.cache P now = none := by
      unfold cacheLookup
      rw [hget]
      simp
      omega
    exact processText_miss_llmCalled llm synth st now P hP hmiss

/-- Witness for C7 (amended) at concrete inputs: an entry with expiry 5 is
absent at `now = 5`, and a text request for it re-invokes completion. -/
theorem C7_lazy_expiry_amended_witness :
    cacheLookup [("q", (⟨"a", 5⟩ : CacheEntry))] "q" 5 = none ∧
    (processText (fun _ => .ok "A") (fun _ => some "MP3")
      ⟨[("q", ⟨"a", 5⟩)], []⟩ 5 (some "q")).llmCalled = true :=
  ⟨(C7_lazy_expiry_amended.1 [("q", ⟨"a", 5⟩)] "q" 5).2
      (Or.inr ⟨⟨"a", 5⟩, rfl, Nat.le_refl 5⟩),
    C7_lazy_expiry_amended.2.2 (fun _ => .ok "A") (fun _ => some "MP3")
      ⟨[("q", ⟨"a", 5⟩)], []⟩ 5 "q" ⟨"a", 5⟩ (by decide) rfl (Nat.le_refl 5)⟩

/-- Claim C3 counterexample: a well-formed 200 reply whose first choice
carries empty content makes `callDeepseekApi` return the empty string —
neither an apology nor non-empty text. -/
theorem C3_counterexample :
    callDeepseekApi (.reply 200 [⟨Role.assistant, ""⟩]) = "" := by
  decide

/-- Claim C3 (amended): `callDeepseekApi` is total (never lets an exception
reach its caller) and returns the fixed connect apology on transport error
and the fixed brain apology on a non-200 status or a missing/empty `choices`
array — both apologies are non-empty — but a 200 reply with a non-empty
choices array is passed through verbatim as `choices[0].message.content`,
which may be empty; and in `src/server.js` there is no apology fallback at
all: a completion failure propagates to the handler's catch and yields a
plain 500. -/
theorem C3_completion_fallbacks_amended :
    callDeepseekApi .transportError = dsApologyConnect ∧
    (∀ (status : Nat) (choices : List Message), ¬ status = 200 →
      callDeepseekApi (.reply status choices) = dsApologyBrain) ∧
    (∀ status : Nat, callDeepseekApi (.reply status []) = dsApologyBrain) ∧
    (∀ (c : Message) (rest : List Message),
      callDeepseekApi (.reply 200 (c :: rest)) = c.content) ∧
    ¬ dsApologyConnect = "" ∧
    ¬ dsApologyBrain = "" ∧
    (∀ (llm : List Message → Except Unit String) (synth : String → Option String)
      (st : ServerState) (now : Nat) (P : String),
      ¬ P = "" → cacheLookup st.cache P now = none →
      llm (textCompletionMessages st.history P) = .error () →
      (processText llm synth st now (some P)).outcome
        = .serverError serverErrorMsg) := by
  refine ⟨rfl, ?_, ?_, ?_, by decide, by decide, ?_⟩
  · intro status choices h
    simp [callDeepseekApi, h]
  · intro status
    by_cases h : status = 200 <;> simp [callDeepseekApi, h]
  · intro c rest
    simp [callDeepseekApi]
  · intro llm synth st now P hP hmiss hllm
    rw [processText_miss_llmFail llm synth st now P hP hmiss hllm]

/-- Witness for C3 (amended) at concrete inputs: a 500-status reply gets the
brain apology, and a text request whose completion call throws ends in a
plain 500 with no apology. -/
theorem C3_completion_fallbacks_amended_witness :
    (¬ (500 : Nat) = 200 ∧
      callDeepseekApi (.reply 500 [⟨Role.assistant, "x"⟩]) = dsApologyBrain) ∧
    (¬ ("Привет" : String) = "" ∧
      (processText (fun _ => .error ()) (fun _ => some "MP3") ⟨[], []⟩ 0
        (some "Привет")).outcome = .serverError serverErrorMsg) :=
  ⟨⟨by decide,
      C3_completion_fallbacks_amended.2.1 500 [⟨Role.assistant, "x"⟩] (by decide)⟩,
    ⟨by decide,
      C3_completion_fallbacks_amended.2.2.2.2.2.2 (fun _ => .error ())
        (fun _ => some "MP3") ⟨[], []⟩ 0 "Привет" (by decide) rfl rfl⟩⟩

/-- Claim C4 counterexample: on the text endpoint's cache-hit path the
synthesis call runs before the handler's try/catch, so a synthesis failure
escapes uncaught — the handler produces neither a 500/error body nor audio. -/
theorem C4_counterexample :
    (processText (fun _ => .ok "x") (fun _ => none)
      ⟨[("q", ⟨"a", 50⟩)], []⟩ 10 (some "q")).outcome = .unhandled := by
  decide

/-- Claim C4 (amended): when synthesis fails, the voice endpoint and the text
endpoint's cache-miss path respond with a 500/error body and never send audio
bytes; on the text endpoint's cache-hit path, however, the synthesis error is
thrown outside the try/catch, so the handler sends no 500/error body (and no
audio) at all. -/
theorem C4_synthesis_failure_amended (synth : String → Option String)
    (hsyn : ∀ s, synth s = none) :
    (∀ (stt : Option String) (ds : String → DSResponse) (st : ServerState),
      (processVoice stt ds synth st true).outcome
        = .serverError ("Внутренняя ошибка сервера: " ++ "TTS service failed.") ∧
      ∀ ct b, ¬ (processVoice stt ds synth st true).outcome = .ok ct b) ∧
    (∀ (llm : List Message → Except Unit String) (st : ServerState) (now : Nat)
      (P txt : String),
      ¬ P = "" → cacheLookup st.cache P now = none →
      llm (textCompletionMessages st.history P) = .ok txt →
      (processText llm synth st now (some P)).outcome
        = .serverError serverErrorMsg) ∧
    (∀ (llm : List Message → Except Unit String) (st : ServerState) (now : Nat)
      (P txtR : String),
      ¬ P = "" → cacheLookup st.cache P now = some txtR →
      (processText llm synth st now (some P)).outcome = .unhandled) := by
  have hstep : ∀ (st : ServerState) (ft : String) (c : Bool)
      (rq : Option CompletionRequest),
      (voiceSynthStep synth st ft c rq).outcome
        = .serverError ("Внутренняя ошибка сервера: " ++ "TTS service failed.") := by
    intro st ft c rq
    unfold voiceSynthStep callTtsApi
    rw [hsyn ft]
  refine ⟨?_, ?_, ?_⟩
  · intro stt ds st
    have houtcome : (processVoice stt ds synth st true).outcome
        = .serverError ("Внутренняя ошибка сервера: " ++ "TTS service failed.") := by
      rw [processVoice_eq_synthStep]
      cases stt with
      | none => exact hstep ..
      | some t =>
        by_cases h : strTrim t = "" <;> simp [h, hstep]
    refine ⟨houtcome, ?_⟩
    intro ct b hok
    rw [houtcome] at hok
    exact HttpOutcome.noConfusion hok
  · intro llm st now P txt hP hmiss hllm
    rw [processText_miss_synthFail llm synth st now P txt hP hmiss hllm (hsyn txt)]
  · intro llm st now P txtR hP hhit
    rw [processText_hit_synthFail llm synth st now P txtR hP hhit (hsyn txtR)]

/-- Witness for C4 (amended) with an always-failing synthesizer: a voice
request gets a 500 error body, and a cache-miss text request gets the plain
500 error message. -/
theorem C4_synthesis_failure_amended_witness :
    ((processVoice (some "Привет") (fun _ => .reply 200 [⟨Role.assistant, "Ответ"⟩])
        (fun _ => none) ⟨[], []⟩ true).outcome
      = .serverError ("Внутренняя ошибка сервера: " ++ "TTS service failed.")) ∧
    (¬ ("Привет" : String) = "" ∧
      (processText (fun _ => .ok "Ответ") (fun _ => none) ⟨[], []⟩ 0
        (some "Привет")).outcome = .serverError serverErrorMsg) :=
  ⟨((C4_synthesis_failure_amended (fun _ => none) (fun _ => rfl)).1
      (some "Привет") (fun _ => .reply 200 [⟨Role.assistant, "Ответ"⟩]) ⟨[], []⟩).1,
    ⟨by decide,
      (C4_synthesis_failure_amended (fun _ => none) (fun _ => rfl)).2.1
        (fun _ => .ok "Ответ") ⟨[], []⟩ 0 "Привет" "Ответ" (by decide) rfl rfl⟩⟩

/-- Claim C2 counterexample: a voice request whose transcript has a live
cache entry still invokes the completion adapter (there is no cache check on
the voice path), and the shared cache/history state is left untouched — in
particular no (user, assistant) pair is appended to memory. -/
theorem C2_counterexample :
    (processVoice (some "Привет") (fun _ => .reply 200 [⟨Role.assistant, "Ответ"⟩])
      (fun _ => some "MP3") ⟨[("Привет", ⟨"Кэш", 99999⟩)], []⟩ true).llmCalled
      = true ∧
    (processVoice (some "Привет") (fun _ => .reply 200 [⟨Role.assistant, "Ответ"⟩])
      (fun _ => some "MP3") ⟨[("Привет", ⟨"Кэш", 99999⟩)], []⟩ true).state
      = ⟨[("Привет", ⟨"Кэш", 99999⟩)], []⟩ := by
  decide

/-- Claim C2 (amended): only text requests pass through the cache check.  On
a text-request cache miss the handler calls completion with the system prompt
plus the full memory snapshot plus the new user turn, stores the result under
the prompt with a fresh expiry, and appends the (user, assistant) pair (with
trimming) before synthesis.  A voice request never consults cache or memory:
it leaves the shared state untouched on every path, and after a successful
transcription calls completion with only the fixed system prompt and the
transcript. -/
theorem C2_pipeline_amended :
    (∀ (llm : List Message → Except Unit String) (synth : String → Option String)
      (st : ServerState) (now : Nat) (P txt : String),
      ¬ P = "" → cacheLookup st.cache P now = none →
      llm (textCompletionMessages st.history P) = .ok txt →
      (processText llm synth st now (some P)).llmCalled = true ∧
      (processText llm synth st now (some P)).llmRequest
        = some (textCompletionRequest st.history P) ∧
      (processText llm synth st now (some P)).state.cache
        = assocSet st.cache P ⟨txt, now + CACHE_EXPIRY_TIME_MS⟩ ∧
      (processText llm synth st now (some P)).state.history
        = appendPair st.history P txt ∧
      (processText llm synth st now (some P)).ttsInput = some txt) ∧
    (∀ (stt : Option String) (ds : String → DSResponse)
      (synth : String → Option String) (st : ServerState) (hasFile : Bool),
      (processVoice stt ds synth st hasFile).state = st) ∧
    (∀ (t : String) (ds : String → DSResponse) (synth : String → Option String)
      (st : ServerState), ¬ strTrim t = "" →
      (processVoice (some t) ds synth st true).llmRequest
        = some (voiceCompletionRequest t) ∧
      (processVoice (some t) ds synth st true).ttsInput
        = some (callDeepseekApi (ds t))) := by
  refine ⟨?_, ?_, ?_⟩
  · intro llm synth st now P txt hP hmiss hllm
    cases hsyn : synth txt with
    | none =>
      rw [processText_miss_synthFail llm synth st now P txt hP hmiss hllm hsyn]
      exact ⟨rfl, rfl, rfl, rfl, rfl⟩
    | some audio =>
      rw [processText_miss_ok llm synth st now P txt audio hP hmiss hllm hsyn]
      exact ⟨rfl, rfl, rfl, rfl, rfl⟩
  · intro stt ds synth st hasFile
    cases hasFile with
    | false => rfl
    | true =>
      rw [processVoice_eq_synthStep]
      cases stt with
      | none => exact voiceSynthStep_state ..
      | some t =>
        by_cases h : strTrim t = "" <;> simp [h, voiceSynthStep_state]
  · intro t ds synth st ht
    have hv : processVoice (some t) ds synth st true
        = voiceSynthStep synth st (callDeepseekApi (ds t)) true
            (some (voiceCompletionRequest t)) := by
      rw [processVoice_eq_synthStep]
      simp [ht]
    rw [hv]
    exact ⟨voiceSynthStep_llmRequest .., voiceSynthStep_ttsInput ..⟩

/-- Witness for C2 (amended) at a concrete run: a cache-miss text request
appends its pair and stores its result; a voice request with transcript
"Привет" leaves the state untouched and sends only system prompt plus
transcript. -/
theorem C2_pipeline_amended_witness :
    (¬ ("Привет" : String) = "" ∧
      (processText (fun _ => .ok "Ответ") (fun _ => some "MP3") ⟨[], []⟩ 0
        (some "Привет")).state.history = appendPair [] "Привет" "Ответ") ∧
    (¬ strTrim "Привет" = "" ∧
      (processVoice (some "Привет") (fun _ => .reply 200 [⟨Role.assistant, "Ответ"⟩])
        (fun _ => some "MP3") ⟨[], []⟩ true).llmRequest
        = some (voiceCompletionRequest "Привет")) :=
  ⟨⟨by decide,
      (C2_pipeline_amended.1 (fun _ => .ok "Ответ") (fun _ => some "MP3")
        ⟨[], []⟩ 0 "Привет" "Ответ" (by decide) rfl rfl).2.2.2.1⟩,
    ⟨by decide,
      (C2_pipeline_amended.2.2 "Привет"
        (fun _ => .reply 200 [⟨Role.assistant, "Ответ"⟩]) (fun _ => some "MP3")
        ⟨[], []⟩ (by decide)).1⟩⟩

/-- Claim C8 counterexample: a concrete cache-miss text request emits a
completion call that sets no `max_tokens` bound and whose fixed system
instruction mentions neither a word bound nor Russian — so not every
completion call of the program carries a fixed maximum reply length and
Russian as the target language. -/
theorem C8_counterexample :
    (processText (fun _ => .ok "Ответ") (fun _ => some "MP3") ⟨[], []⟩ 0
      (some "Привет")).llmRequest = some (textCompletionRequest [] "Привет") ∧
    (textCompletionRequest [] "Привет").maxTokens = none ∧
    (textCompletionRequest [] "Привет").messages.head?
      = some ⟨Role.system, textSystemPromptContent⟩ ∧
    hasSub textSystemPromptContent "русск" = false ∧
    hasSub textSystemPromptContent "слов" = false ∧
    hasSub textSystemPromptContent "40" = false := by
  decide

/-- Claim C8 (amended): every completion call either handler emits prepends
its fixed system instruction ahead of the supplied history and the new user
turn — the text handler sends `textCompletionRequest` (system prompt, full
history, new user turn) on every cache miss, the voice handler sends
`voiceCompletionRequest` (system prompt, transcript) on every non-blank
transcription — but the two instructions differ.  Only the voice-path call
specifies the concise persona with an explicit 40-word bound and Russian as
the target language, plus `max_tokens: 100`; the text-path call uses a fixed
English concise-assistant instruction with no length bound and no language
directive. -/
theorem C8_system_instruction_amended :
    (∀ (llm : List Message → Except Unit String) (synth : String → Option String)
      (st : ServerState) (now : Nat) (P : String),
      ¬ P = "" → cacheLookup st.cache P now = none →
      (processText llm synth st now (some P)).llmRequest
        = some (textCompletionRequest st.history P)) ∧
    (∀ (t : String) (ds : String → DSResponse) (synth : String → Option String)
      (st : ServerState), ¬ strTrim t = "" →
      (processVoice (some t) ds synth st true).llmRequest
        = some (voiceCompletionRequest t)) ∧
    (∀ (history : List Message) (prompt t : String),
      (textCompletionRequest history prompt).model = "deepseek-chat" ∧
      (textCompletionRequest history prompt).messages
        = ⟨Role.system, textSystemPromptContent⟩ ::
            (history ++ [⟨Role.user, prompt⟩]) ∧
      (textCompletionRequest history prompt).maxTokens = none ∧
      (voiceCompletionRequest t).model = "deepseek-chat" ∧
      (voiceCompletionRequest t).messages
        = [⟨Role.system, voiceSystemPromptContent⟩, ⟨Role.user, t⟩] ∧
      (voiceCompletionRequest t).maxTokens = some 100 ∧
      hasSub voiceSystemPromptContent "не более 40 слов" = true ∧
      hasSub voiceSystemPromptContent "на русском языке" = true) := by
  refine ⟨?_, ?_, ?_⟩
  · intro llm synth st now P hP hmiss
    exact processText_miss_llmRequest llm synth st now P hP hmiss
  · intro t ds synth st ht
    have hv : processVoice (some t) ds synth st true
        = voiceSynthStep synth st (callDeepseekApi (ds t)) true
            (some (voiceCompletionRequest t)) := by
      rw [processVoice_eq_synthStep]
      simp [ht]
    rw [hv]
    exact voiceSynthStep_llmRequest ..
  · intro history prompt t
    exact ⟨rfl, rfl, rfl, rfl, rfl, rfl, by decide, by decide⟩

/-- Witness for C8 (amended) at concrete runs: a cache-miss text request
emits the history-bearing English-prompt request, and a voice request with
transcript "Привет" emits the Russian-prompt request. -/
theorem C8_system_instruction_amended_witness :
    (¬ ("Привет" : String) = "" ∧
      (processText (fun _ => .ok "Ответ") (fun _ => some "MP3") ⟨[], []⟩ 0
        (some "Привет")).llmRequest = some (textCompletionRequest [] "Привет")) ∧
    (¬ strTrim "Привет" = "" ∧
      (processVoice (some "Привет") (fun _ => .transportError) (fun _ => some "MP3")
        ⟨[], []⟩ true).llmRequest = some (voiceCompletionRequest "Привет")) :=
  ⟨⟨by decide,
      C8_system_instruction_amended.1 (fun _ => .ok "Ответ") (fun _ => some "MP3")
        ⟨[], []⟩ 0 "Привет" (by decide) rfl⟩,
    ⟨by decide,
      C8_system_instruction_amended.2.1 "Привет" (fun _ => .transportError)
        (fun _ => some "MP3") ⟨[], []⟩ (by decide)⟩⟩

end SmartGlasses
